import Mathlib

/-!
Verification of the framed-socket IPC transport pattern implemented by
`ipc_communicator.py`, `towel_transport.py`, `vscode_ipc_communicator.py`
and `trae_client_final.py` of the `trae-minimax-client` repository.

The Python classes are shallowly embedded as pure Lean functions over
explicit state records.  Python `dict`s become association lists
(`List (String × α)`) with insertion-order semantics matching CPython;
byte strings become `List Nat` (each entry intended `< 256`); `threading.Event`
objects become `Bool` flags (`false` = not set); and the blocking
`event.wait(timeout)` call of a synchronous `send_request` round trip is
resolved by an explicit oracle argument describing what the background
listener thread delivered before the wait expired.
-/

namespace Spec2Proof

/-! ### Python dict operations on association lists

`dinsert` models `d[k] = v` (overwrite in place, append fresh keys at the
end, as CPython dicts do), `dget` models `d.get(k)`, `derase` models
`del d[k]` (CPython keys are unique, so removing every binding of `k`
coincides with removing the single one), and `dmemb` models `k in d`. -/

def dget {α : Type} (d : List (String × α)) (k : String) : Option α :=
  match d with
  | [] => none
  | (k', v) :: t => if k' = k then some v else dget t k

def dinsert {α : Type} (k : String) (v : α) (d : List (String × α)) :
    List (String × α) :=
  match d with
  | [] => [(k, v)]
  | (k', v') :: t => if k' = k then (k, v) :: t else (k', v') :: dinsert k v t

def derase {α : Type} (k : String) (d : List (String × α)) : List (String × α) :=
  d.filter (fun p => decide (p.1 ≠ k))

def dmemb {α : Type} (k : String) (d : List (String × α)) : Bool :=
  (dget d k).isSome

/-! ### Structured payloads

A `PVal` is a JSON-like value (the result of `json.loads` on a frame body).
A `Msg` is the top-level mapping of a parsed payload, restricted to the
keys the transport implementations actually read; `none` means the key is
absent from the mapping. -/

inductive PVal : Type where
  | obj (fields : List (String × PVal))
  | str (s : String)
  | num (n : Int)
  | boolean (b : Bool)
  | null

/-- Python `v == s` for a string literal `s` (false on non-strings). -/
def pvalIsStr (v : PVal) (s : String) : Bool :=
  match v with
  | .str s' => s' == s
  | _ => false

/-- Python `v == n` for an integer literal `n` (false on non-numbers). -/
def pvalIsNum (v : PVal) (n : Int) : Bool :=
  match v with
  | .num n' => n' == n
  | _ => false

/-- Python truthiness of a value: empty mappings and strings, zero,
`False` and `None` are falsy. -/
def pvalTruthy (v : PVal) : Bool :=
  match v with
  | .obj fs => !fs.isEmpty
  | .str s => !(s == "")
  | .num n => !(n == 0)
  | .boolean b => b
  | .null => false

/-- Python truthiness of `d.get(k)`: falsy when the key is absent. -/
def optTruthy (o : Option PVal) : Bool :=
  match o with
  | some v => pvalTruthy v
  | none => false

structure Msg where
  type : Option PVal := none
  dollarType : Option PVal := none
  id : Option String := none
  traceId : Option String := none
  requestId : Option String := none
  error : Option PVal := none
  result : Option PVal := none
  message : Option String := none
  code : Option Int := none
  success : Option Bool := none
  data : Option PVal := none

/-! ### Wire framing (`towel_transport.py` / `vscode_ipc_communicator.py`)

`be32enc n` models `struct.pack('>I', n)` (for `n < 2^32`);
`readBE32` models `struct.unpack('>I', buffer[:4])[0]`;
`encodeFrame` models `struct.pack('>I', len(content_bytes)) + content_bytes`
where the payload argument stands for the UTF-8 byte encoding of the
serialized message. -/

def be32enc (n : Nat) : List Nat :=
  [n / 16777216 % 256, n / 65536 % 256, n / 256 % 256, n % 256]

def readBE32 (b : List Nat) : Nat :=
  match b with
  | b0 :: b1 :: b2 :: b3 :: _ => b0 * 16777216 + b1 * 65536 + b2 * 256 + b3
  | _ => 0

def encodeFrame (p : List Nat) : List Nat :=
  be32enc p.length ++ p

def frameStream (fs : List (List Nat)) : List Nat :=
  (fs.map encodeFrame).flatten

/-! ### The listener buffer loop of `TowelTransportClient._listen_loop`

The inner `while len(buffer) >= 4` draining loop is embedded as
`drainAux`, with a structural fuel argument (one unit per extracted frame;
`buffer.length` units always suffice because each frame consumes at least
4 bytes).  The `struct.error` branch of the source is dead code — unpacking
exactly 4 bytes never raises — and is not modeled.  When a declared frame
is still incomplete and the buffer already exceeds `max_buffer_size =
65536` bytes, the buffer is discarded.  `feedAll` models the outer loop
feeding successive `recv` chunks into the persistent buffer, collecting
the extracted frame payloads in arrival order. -/

def drainAux : Nat → List Nat → List (List Nat) × List Nat
  | 0, buffer => ([], buffer)
  | fuel + 1, buffer =>
    if 4 ≤ buffer.length then
      let length := readBE32 buffer
      if buffer.length < 4 + length then
        if 65536 < buffer.length then ([], []) else ([], buffer)
      else
        let payload := (buffer.drop 4).take length
        let rest := buffer.drop (4 + length)
        let r := drainAux fuel rest
        (payload :: r.1, r.2)
    else ([], buffer)

def drainBuffer (buffer : List Nat) : List (List Nat) × List Nat :=
  drainAux buffer.length buffer

def feedAll (buf : List Nat) : List (List Nat) → List (List Nat) × List Nat
  | [] => ([], buf)
  | c :: cs =>
    let r := drainBuffer (buf ++ c)
    let r' := feedAll r.2 cs
    (r.1 ++ r'.1, r'.2)

/-- One extracted frame body is handed to `json.loads` and then
`_handle_message`; a parse failure is swallowed (`except ... pass`).
`decode` stands for `json.loads` composed with the message-field reads,
returning `none` when the bytes are not valid JSON. -/
def processPayloads {σ : Type} (decode : List Nat → Option Msg)
    (handle : σ → Msg → σ) (s : σ) (ps : List (List Nat)) : σ :=
  ps.foldl (fun st p => match decode p with
    | some m => handle st m
    | none => st) s

/-! ### TowelTransportClient (`towel_transport.py`) -/

namespace TowelTransportClient

/-- State of a `TowelTransportClient` instance: `socketSome` models
`self.socket is not None`; `pending` maps a request id to the `is_set`
status of its `threading.Event`; `responses` and `traceIdMap` are the
corresponding dicts. -/
structure State where
  socketSome : Bool
  connected : Bool
  running : Bool
  pending : List (String × Bool)
  responses : List (String × Msg)
  traceIdMap : List (String × String)

/-- Which of the three `connect` code paths the socket attempt takes:
`sock.connect` succeeds, raises `socket.timeout`, or raises another
exception. -/
inductive SockAttempt : Type where
  | ok
  | timeout
  | err

/-- The failure taxonomy of `connect`: the spec's names for the three
`return False` branches of the source (missing socket file, the
`except socket.timeout` handler, the generic `except Exception` handler)
plus the `return True` path. -/
inductive ConnectOutcome : Type where
  | success
  | endpointNotFound
  | connectTimeout
  | connectError
deriving DecidableEq

/-- `TowelTransportClient.connect`.  The pre-existence check happens before
`socket.socket(...)` is called; on the success path the listener thread is
started (`running = True`).  When `sock.connect` raises, `self.socket`
already holds the freshly created socket object. -/
def connect (s : State) (pathExists : Bool) (att : SockAttempt) :
    State × ConnectOutcome :=
  if pathExists = false then (s, .endpointNotFound)
  else
    match att with
    | .ok => ({ s with socketSome := true, connected := true, running := true },
              .success)
    | .timeout => ({ s with socketSome := true }, .connectTimeout)
    | .err => ({ s with socketSome := true }, .connectError)

/-- `TowelTransportClient.disconnect`: sets `running = False`, closes and
clears the socket, clears `connected`.  It does not touch
`pending_requests`, `responses` or `trace_id_map`, and it does not set any
pending `threading.Event`. -/
def disconnect (s : State) : State :=
  { s with running := false, socketSome := false, connected := false }

/-- `TowelTransportClient.is_connected`. -/
def is_connected (s : State) : Bool :=
  s.connected && s.socketSome

/-- `TowelTransportClient._handle_message`: look the message's `trace_id`
up in `trace_id_map`; if it yields a truthy request id present in
`pending_requests`, store the message and set that request's event.
Otherwise the message only produces a log line (the notification branch
logs and keeps no state). -/
def handle_message (s : State) (m : Msg) : State :=
  match dget s.traceIdMap (m.traceId.getD "") with
  | some rid =>
      if rid ≠ "" ∧ dmemb rid s.pending = true then
        { s with responses := dinsert rid m s.responses,
                 pending := dinsert rid true s.pending }
      else s
  | none => s

/-- Result of a `send_request` call: a raised `TowelProtocolError`
(not-connected, send failure, or timeout) or a returned `IPCResponse`.
The dataclass's `response_size` field (a `len(json.dumps(...))` byte count
used only for logging) is not modeled.  `data` keeps the
`response_data.get('data', response_data)` fallback: either the `data`
field or the whole message. -/
inductive Result : Type where
  | ok (success : Bool) (data : Sum PVal Msg) (error : PVal) (traceId : String)
  | errNotConnected
  | errSendFailed
  | errTimeout

/-- Build the returned `IPCResponse` from `response_data` (the popped
response message, `{}` when absent) exactly as the source does. -/
def mkResponse (rd : Option Msg) (traceId : String) : Result :=
  let m := rd.getD {}
  .ok (m.success.getD true)
      (match m.data with | some v => .inl v | none => .inr m)
      (m.error.getD (.str ""))
      traceId

/-- `TowelTransportClient.send_request`.  `rid`/`tid` stand for the two
freshly generated UUID strings; `sendOk` tells whether `sendall` succeeds;
`arrival = some m` means the listener thread ran `_handle_message m`
before the `event.wait(timeout)` deadline, `arrival = none` that nothing
arrived in time.  The wait succeeds exactly when the caller's own event
got set. -/
def send_request (s : State) (rid tid : String) (sendOk : Bool)
    (arrival : Option Msg) : State × Result :=
  if s.connected = false then (s, .errNotConnected)
  else
    let s1 : State := { s with traceIdMap := dinsert tid rid s.traceIdMap }
    if sendOk = false then
      ({ s1 with traceIdMap := derase tid s1.traceIdMap }, .errSendFailed)
    else
      let s2 : State := { s1 with pending := dinsert rid false s1.pending }
      let s3 : State := match arrival with
        | some m => handle_message s2 m
        | none => s2
      if dget s3.pending rid = some true then
        let rd := dget s3.responses rid
        ({ s3 with responses := derase rid s3.responses,
                   pending := derase rid s3.pending,
                   traceIdMap := derase tid s3.traceIdMap },
         mkResponse rd tid)
      else
        ({ s3 with pending := derase rid s3.pending,
                   traceIdMap := derase tid s3.traceIdMap },
         .errTimeout)

/-- The client state reached after `connect` and the registration steps of
N concurrent `send_request` calls, none yet answered: for each request
`(request_id, trace_id)` the trace map holds `trace_id → request_id` and
`pending_requests` holds an unset event; no responses are stored. -/
def registered (reqs : List (String × String)) : State :=
  { socketSome := true, connected := true, running := true,
    pending := reqs.map (fun p => (p.1, false)),
    responses := [],
    traceIdMap := reqs.map (fun p => (p.2, p.1)) }

end TowelTransportClient

/-! ### IPCCommunicator (`ipc_communicator.py`)

This client uses newline-delimited JSON rather than length prefixes, a
single shared `threading.Event` (`response_event`) for all requests, and
one dict `pending_responses` doubling as registration set and response
slot (`None` until the response is stored). -/

namespace IPCCommunicator

structure State where
  socketSome : Bool
  connected : Bool
  requestId : Nat
  pendingResponses : List (String × Option Msg)
  responseEventSet : Bool
  notificationCallback : Bool
  notifications : List Msg
  listenerStarted : Bool

/-- The state of a freshly constructed `IPCCommunicator(auto_connect=False)`. -/
def init : State :=
  { socketSome := false, connected := false, requestId := 0,
    pendingResponses := [], responseEventSet := false,
    notificationCallback := false, notifications := [],
    listenerStarted := false }

inductive SockRes : Type where
  | ok
  | err

/-- `IPCCommunicator.connect`: returns `False` before creating any socket
when the path does not exist; on `socket.error` from `sock.connect` the
already-assigned socket object stays in `self.socket` while `connected`
is forced `False`; on success the listener thread is started. -/
def connect (s : State) (pathExists : Bool) (res : SockRes) : State × Bool :=
  if pathExists = false then (s, false)
  else
    match res with
    | .ok => ({ s with socketSome := true, connected := true,
                       listenerStarted := true }, true)
    | .err => ({ s with socketSome := true, connected := false }, false)

/-- `IPCCommunicator.disconnect`: closes and clears the socket and the
`connected` flag; `pending_responses` and `response_event` are untouched,
so no waiting `send_request` caller is signaled. -/
def disconnect (s : State) : State :=
  if s.socketSome then { s with socketSome := false, connected := false }
  else s

/-- `IPCCommunicator.is_connected`. -/
def is_connected (s : State) : Bool :=
  s.connected && s.socketSome

/-- `IPCCommunicator._handle_message` after the `json.loads` step: a
`type == 'response'` message with a truthy `id` present in
`pending_responses` is stored there and the shared event is set; a
`type == 'notification'` message goes to the callback when one is
registered; anything else (including a response whose id is unknown) is
dropped. -/
def handle_message (s : State) (m : Msg) : State :=
  if pvalIsStr (m.type.getD (.str "unknown")) "response" then
    if m.id.getD "" ≠ "" ∧ dmemb (m.id.getD "") s.pendingResponses = true then
      { s with pendingResponses :=
                 dinsert (m.id.getD "") (some m) s.pendingResponses,
               responseEventSet := true }
    else s
  else if pvalIsStr (m.type.getD (.str "unknown")) "notification" then
    if s.notificationCallback then
      { s with notifications := s.notifications ++ [m] }
    else s
  else s

/-- Result of `IPCCommunicator.send_request`: the returned `result` field,
the `{'id', 'status': 'sent'}` dict of the `wait_response=False` path, or
one of the raised exceptions.  `crashTypeError` models the `TypeError`
raised by `'error' in response` when the popped slot still holds `None`
(reachable only when the shared event was set by a different request's
response); `crashAttributeError` models the untyped `AttributeError`
raised by `error.get('message', ...)` when the payload's `error` value is
not a mapping. -/
inductive Result : Type where
  | ok (result : PVal)
  | sent (id : String)
  | errNotConnected
  | errTimeout
  | errRemote (message : PVal) (code : PVal)
  | errSendFailed
  | crashTypeError
  | crashAttributeError

/-- Does this `send_request` outcome raise an exception? -/
def raises : Result → Bool
  | .ok _ => false
  | .sent _ => false
  | _ => true

/-- `IPCCommunicator.send_request`.  `sendOk` tells whether `sendall`
succeeds (a `socket.error` there marks the transport disconnected);
`arrival = some m` means the listener ran `_handle_message m` between the
`response_event.clear()` and the expiry of `response_event.wait(timeout)`.
When the payload's `error` value is present but is not a mapping, the
source's `error.get('message', ...)` raises `AttributeError` — an
untyped crash, not an `IPCError` — modeled as `crashAttributeError`
(`AttributeError` is not a `socket.error`, so the surrounding `try` does
not catch it). -/
def send_request (s : State) (waitResponse : Bool) (sendOk : Bool)
    (arrival : Option Msg) : State × Result :=
  if is_connected s = false then (s, .errNotConnected)
  else
    let reqId := Nat.repr (s.requestId + 1)
    let s1 : State := { s with requestId := s.requestId + 1 }
    if sendOk = false then ({ s1 with connected := false }, .errSendFailed)
    else if waitResponse = false then (s1, .sent reqId)
    else
      let s2 : State :=
        { s1 with pendingResponses := dinsert reqId none s1.pendingResponses,
                  responseEventSet := false }
      let s3 : State := match arrival with
        | some m => handle_message s2 m
        | none => s2
      if s3.responseEventSet = false then
        ({ s3 with pendingResponses := derase reqId s3.pendingResponses },
         .errTimeout)
      else
        match dget s3.pendingResponses reqId with
        | some (some m) =>
            let s4 : State :=
              { s3 with pendingResponses := derase reqId s3.pendingResponses }
            (match m.error with
             | some (.obj efs) =>
                 (s4, .errRemote ((dget efs "message").getD (.str "未知错误"))
                                 ((dget efs "code").getD (.num (-1))))
             | some _ => (s4, .crashAttributeError)
             | none => (s4, .ok (m.result.getD (.obj []))))
        | _ =>
            ({ s3 with pendingResponses := derase reqId s3.pendingResponses },
             .crashTypeError)

end IPCCommunicator

/-! ### VSCodeIPCProtocol (`vscode_ipc_communicator.py`) -/

namespace VSCodeIPCProtocol

/-- A stored entry of `self.responses`: the raw message for an `ok`
response, or the synthesized `{'error': True, 'message': ..., 'code': ...}`
dict for an `err` response. -/
inductive Stored : Type where
  | okMsg (m : Msg)
  | errObj (message : String) (code : Int)

structure State where
  socketSome : Bool
  connected : Bool
  requestId : Nat
  pendingRequests : List (String × Unit)
  responses : List (String × Stored)
  responseEventSet : Bool
  notificationCallback : Bool
  notifications : List Msg

/-- The discriminator read `message.get('type', message.get('$$type',
'unknown'))`. -/
def msgType (m : Msg) : PVal :=
  match m.type with
  | some v => v
  | none => m.dollarType.getD (.str "unknown")

/-- `VSCodeIPCProtocol._handle_message`: `type` 2/`'ok'` and 3/`'err'`
store a response and set the shared event when the id is a truthy member
of `pending_requests`; `'cancel'` deregisters such an id; every other
message is handed to the notification callback when one is registered.
A response-typed message whose id is not pending falls through all
branches and is dropped. -/
def handle_message (s : State) (m : Msg) : State :=
  if pvalIsNum (msgType m) 2 || pvalIsStr (msgType m) "ok" then
    if m.id.getD "" ≠ "" ∧ dmemb (m.id.getD "") s.pendingRequests = true then
      { s with responses := dinsert (m.id.getD "") (.okMsg m) s.responses,
               responseEventSet := true }
    else s
  else if pvalIsNum (msgType m) 3 || pvalIsStr (msgType m) "err" then
    if m.id.getD "" ≠ "" ∧ dmemb (m.id.getD "") s.pendingRequests = true then
      { s with responses := dinsert (m.id.getD "")
                 (.errObj (m.message.getD "Unknown error") (m.code.getD (-1)))
                 s.responses,
               responseEventSet := true }
    else s
  else if pvalIsStr (msgType m) "cancel" then
    if m.id.getD "" ≠ "" ∧ dmemb (m.id.getD "") s.pendingRequests = true then
      { s with pendingRequests := derase (m.id.getD "") s.pendingRequests }
    else s
  else
    if s.notificationCallback then
      { s with notifications := s.notifications ++ [m] }
    else s

/-- `VSCodeIPCProtocol.is_connected`. -/
def is_connected (s : State) : Bool :=
  s.connected && s.socketSome

/-- Result of `VSCodeIPCProtocol.send_request`: the returned `result`
field or one of the raised `VSCodeIPCError`s (`errNoResponse` is the
`"未收到响应"` raise when the shared event was set but this id has no
stored response). -/
inductive Result : Type where
  | ok (result : PVal)
  | errNotConnected
  | errTimeout
  | errRemote (message : String) (code : Int)
  | errNoResponse

/-- Does this `send_request` outcome raise an exception? -/
def raises : Result → Bool
  | .ok _ => false
  | _ => true

/-- `VSCodeIPCProtocol.send_request`.  The pending entry is stored before
`_send_message` is called; `_send_message`'s `False` return on a send
failure (which marks the transport disconnected) is ignored, so the call
proceeds to wait regardless.  On timeout the pending entry is deleted if
still present.  On delivery the stored response is popped: a synthesized
error entry raises with its stored message/code, and a raw `ok` message
whose own `error` field is truthy raises with the message's top-level
`message`/`code` fields; otherwise the message's `result` field is
returned.  The success path never deletes the pending entry. -/
def send_request (s : State) (sendOk : Bool) (arrival : Option Msg) :
    State × Result :=
  if is_connected s = false then (s, .errNotConnected)
  else
    let reqId := Nat.repr (s.requestId + 1)
    let s1 : State := { s with requestId := s.requestId + 1 }
    let s2 : State :=
      { s1 with pendingRequests := dinsert reqId () s1.pendingRequests }
    let s3 : State := if sendOk then s2 else { s2 with connected := false }
    let s4 : State := { s3 with responseEventSet := false }
    let s5 : State := match arrival with
      | some m => handle_message s4 m
      | none => s4
    if s5.responseEventSet = false then
      ({ s5 with pendingRequests := derase reqId s5.pendingRequests },
       .errTimeout)
    else
      match dget s5.responses reqId with
      | some st =>
          let s6 : State := { s5 with responses := derase reqId s5.responses }
          (match st with
           | .errObj msg code => (s6, .errRemote msg code)
           | .okMsg m =>
               if optTruthy m.error then
                 (s6, .errRemote (m.message.getD "Unknown error")
                   (m.code.getD (-1)))
               else (s6, .ok (m.result.getD (.obj []))))
      | none => (s5, .errNoResponse)

end VSCodeIPCProtocol

/-! ### TowelTransportIPC (`trae_client_final.py`) -/

namespace TowelTransportIPC

structure State where
  socketSome : Bool
  connected : Bool
  pending : List (String × Bool)
  responses : List (String × Msg)

/-- Python truthiness of an optional string field. -/
def truthy (o : Option String) : Bool :=
  match o with
  | some s => !(s == "")
  | none => false

/-- The first entry of `pending_requests` (dict iteration = insertion
order) whose event is not set. -/
def firstUnset : List (String × Bool) → Option String
  | [] => none
  | (r, ev) :: t => if ev then firstUnset t else some r

/-- `TowelTransportIPC._handle_message`: iterate `pending_requests` in
insertion order, skip entries whose event is set, and give the message to
the first remaining entry whenever the message merely *contains* a truthy
`trace_id` or `request_id` field — the identifiers are never compared
against the request's own. -/
def handle_message (s : State) (m : Msg) : State :=
  if truthy m.traceId || truthy m.requestId then
    match firstUnset s.pending with
    | some rid =>
        { s with responses := dinsert rid m s.responses,
                 pending := dinsert rid true s.pending }
    | none => s
  else s

end TowelTransportIPC

/-! ### Lemmas about the dict operations -/

theorem dget_dinsert {α : Type} (k k' : String) (v : α) (d : List (String × α)) :
    dget (dinsert k v d) k' = if k = k' then some v else dget d k' := by
  induction d with
  | nil => simp [dinsert, dget]
  | cons p t ih =>
      obtain ⟨pk, pv⟩ := p
      by_cases hpk : pk = k
      · subst hpk
        simp only [dinsert, if_pos rfl, dget]
        by_cases hkk : pk = k'
        · simp [hkk]
        · simp [hkk, dget]
      · simp only [dinsert, if_neg hpk, dget]
        by_cases hk' : pk = k'
        · subst hk'
          have : ¬ k = pk := fun h => hpk h.symm
          simp [this]
        · simp [hk', ih]

theorem dget_derase {α : Type} (k k' : String) (d : List (String × α)) :
    dget (derase k d) k' = if k = k' then none else dget d k' := by
  induction d with
  | nil => simp [derase, dget]
  | cons p t ih =>
      obtain ⟨pk, pv⟩ := p
      by_cases hpk : pk = k
      · subst hpk
        by_cases hkk : pk = k'
        · subst hkk
          simpa [derase, dget] using ih
        · have : ¬ pk = k' := hkk
          simp only [derase, List.filter] at ih ⊢
          simp only [decide_not, ne_eq, decide_eq_true_eq] at ih ⊢
          simp [dget, this, ih]
      · by_cases hk' : pk = k'
        · subst hk'
          have hne : ¬ k = pk := fun h => hpk h.symm
          simp only [derase, List.filter, decide_not, ne_eq] at ih ⊢
          simp [dget, hpk, hne, ih]
        · simp only [derase, List.filter, decide_not, ne_eq] at ih ⊢
          simp [dget, hpk, hk', ih]

theorem dmemb_dinsert_of {α : Type} (k k' : String) (v : α)
    (d : List (String × α)) (h : dmemb k d = true) :
    dmemb k (dinsert k' v d) = true := by
  unfold dmemb at h ⊢
  rw [dget_dinsert]
  by_cases hk : k' = k
  · simp [hk]
  · simpa [hk] using h

/-- An association list whose values are pairwise distinct maps at most
one key to each value. -/
theorem dget_inj_of_nodup_values (d : List (String × String))
    (hd : (d.map Prod.snd).Nodup) (t t' r : String)
    (h1 : dget d t = some r) (h2 : dget d t' = some r) : t = t' := by
  induction d with
  | nil => simp [dget] at h1
  | cons p tl ih =>
      obtain ⟨pk, pv⟩ := p
      simp only [List.map_cons, List.nodup_cons] at hd
      simp only [dget] at h1 h2
      by_cases e1 : pk = t
      · by_cases e2 : pk = t'
        · exact e1 ▸ e2 ▸ rfl
        · exfalso
          rw [if_pos e1] at h1
          rw [if_neg e2] at h2
          obtain rfl : pv = r := Option.some.inj h1
          exact hd.1 (by
            have : ∃ q ∈ tl, q.2 = pv := by
              clear ih hd
              induction tl with
              | nil => simp [dget] at h2
              | cons q tq ihq =>
                  simp only [dget] at h2
                  by_cases eq : q.1 = t'
                  · rw [if_pos eq] at h2
                    exact ⟨q, List.mem_cons_self q tq, Option.some.inj h2⟩
                  · rw [if_neg eq] at h2
                    obtain ⟨w, hw, hw2⟩ := ihq h2
                    exact ⟨w, List.mem_cons_of_mem q hw, hw2⟩
            obtain ⟨q, hq, hq2⟩ := this
            exact hq2 ▸ List.mem_map_of_mem Prod.snd hq)
      · by_cases e2 : pk = t'
        · exfalso
          rw [if_neg e1] at h1
          rw [if_pos e2] at h2
          obtain rfl : pv = r := Option.some.inj h2
          exact hd.1 (by
            have : ∃ q ∈ tl, q.2 = pv := by
              clear ih hd
              induction tl with
              | nil => simp [dget] at h1
              | cons q tq ihq =>
                  simp only [dget] at h1
                  by_cases eq : q.1 = t
                  · rw [if_pos eq] at h1
                    exact ⟨q, List.mem_cons_self q tq, Option.some.inj h1⟩
                  · rw [if_neg eq] at h1
                    obtain ⟨w, hw, hw2⟩ := ihq h1
                    exact ⟨w, List.mem_cons_of_mem q hw, hw2⟩
            obtain ⟨q, hq, hq2⟩ := this
            exact hq2 ▸ List.mem_map_of_mem Prod.snd hq)
        · rw [if_neg e1] at h1
          rw [if_neg e2] at h2
          exact ih hd.2 h1 h2

/-- Looking a trace id up in the swapped map of a request list with
distinct trace ids yields the matching request id. -/
theorem dget_swap_map (reqs : List (String × String)) (r t : String)
    (ht : (reqs.map Prod.snd).Nodup) (h : (r, t) ∈ reqs) :
    dget (reqs.map (fun p => (p.2, p.1))) t = some r := by
  induction reqs with
  | nil => simp at h
  | cons q tl ih =>
      obtain ⟨qa, qb⟩ := q
      simp only [List.map_cons, List.nodup_cons] at ht
      simp only [List.map_cons, dget]
      rcases List.mem_cons.mp h with heq | hm
      · obtain ⟨rfl, rfl⟩ := Prod.mk.injEq .. ▸ heq.symm
        simp
      · by_cases e : qb = t
        · exfalso
          subst e
          exact ht.1 (by
            have : (r, qb).2 ∈ tl.map Prod.snd :=
              List.mem_map_of_mem Prod.snd hm
            simpa using this)
        · rw [if_neg e]
          exact ih ht.2 hm

/-- Every registered request id is present (with an unset event) in the
pending table built from the request list. -/
theorem dget_fst_map (reqs : List (String × String)) (r t : String)
    (h : (r, t) ∈ reqs) :
    dget (reqs.map (fun p => (p.1, false))) r = some false := by
  induction reqs with
  | nil => simp at h
  | cons q tl ih =>
      obtain ⟨qa, qb⟩ := q
      simp only [List.map_cons, dget]
      by_cases e : qa = r
      · rw [if_pos e]
      · rw [if_neg e]
        rcases List.mem_cons.mp h with heq | hm
        · exact absurd (congrArg Prod.fst heq.symm) e
        · exact ih hm

/-- A value equal (in the Python sense) to one string literal is not equal
to a different one. -/
theorem pvalIsStr_ne (t : PVal) (a b : String) (hab : a ≠ b)
    (h : pvalIsStr t a = true) : pvalIsStr t b = false := by
  cases t with
  | str s =>
      simp only [pvalIsStr, beq_iff_eq] at h
      subst h
      simp only [pvalIsStr, beq_eq_false_iff_ne, ne_eq]
      exact hab
  | obj fs => rfl
  | num n => rfl
  | boolean c => rfl
  | null => rfl

/-- A value equal (in the Python sense) to one integer literal is not
equal to a different one. -/
theorem pvalIsNum_ne (t : PVal) (a b : Int) (hab : a ≠ b)
    (h : pvalIsNum t a = true) : pvalIsNum t b = false := by
  cases t with
  | num n =>
      simp only [pvalIsNum, beq_iff_eq] at h
      simp only [pvalIsNum, beq_eq_false_iff_ne, ne_eq]
      omega
  | obj fs => rfl
  | str s => rfl
  | boolean c => rfl
  | null => rfl

/-- A value equal to an integer literal is not equal to any string. -/
theorem pvalIsNum_not_str (t : PVal) (a : Int) (s : String)
    (h : pvalIsNum t a = true) : pvalIsStr t s = false := by
  cases t <;> first
    | rfl
    | exact absurd h (by simp [pvalIsNum])

/-- A value equal to a string literal is not equal to any integer. -/
theorem pvalIsStr_not_num (t : PVal) (s : String) (a : Int)
    (h : pvalIsStr t s = true) : pvalIsNum t a = false := by
  cases t <;> first
    | rfl
    | exact absurd h (by simp [pvalIsStr])

theorem toDigitsCore_length_ge (b : Nat) :
    ∀ (fuel n : Nat) (ds : List Char),
      ds.length ≤ (Nat.toDigitsCore b fuel n ds).length := by
  intro fuel
  induction fuel with
  | zero => intro n ds; exact le_rfl
  | succ f ih =>
      intro n ds
      show ds.length ≤ (Nat.toDigitsCore b (f + 1) n ds).length
      rw [Nat.toDigitsCore]
      by_cases h : n / b = 0
      · rw [if_pos h]
        simp
      · rw [if_neg h]
        calc ds.length ≤ (Nat.digitChar (n % b) :: ds).length := by simp
          _ ≤ _ := ih (n / b) (Nat.digitChar (n % b) :: ds)

/-- `str(int)` never produces the empty string, so a generated request id
is always truthy. -/
theorem nat_repr_ne_empty (n : Nat) : Nat.repr n ≠ "" := by
  have hlen : 1 ≤ (Nat.toDigits 10 n).length := by
    unfold Nat.toDigits
    rw [Nat.toDigitsCore]
    by_cases h : n / 10 = 0
    · rw [if_pos h]
      simp
    · rw [if_neg h]
      calc 1 = [Nat.digitChar (n % 10)].length := rfl
        _ ≤ _ := toDigitsCore_length_ge 10 n (n / 10) [Nat.digitChar (n % 10)]
  intro hcontra
  have hdata : Nat.toDigits 10 n = [] := by
    have h2 := congrArg String.data (congrArg id hcontra)
    simpa [Nat.repr, List.asString] using h2
  rw [hdata] at hlen
  simp at hlen

/-! ### Lemmas about the framing arithmetic -/

theorem length_be32enc (n : Nat) : (be32enc n).length = 4 := rfl

theorem be32enc_bytes_lt (n : Nat) : ∀ b ∈ be32enc n, b < 256 := by
  intro b hb
  simp only [be32enc, List.mem_cons, List.not_mem_nil, or_false] at hb
  rcases hb with h | h | h | h <;> subst h <;> omega
  -- (the final `omega` discharges `n % 256 < 256` and the three
  -- `_ / _ % 256 < 256` goals)

theorem readBE32_be32enc_append (n : Nat) (h : n < 4294967296) (r : List Nat) :
    readBE32 (be32enc n ++ r) = n := by
  show n / 16777216 % 256 * 16777216 + n / 65536 % 256 * 65536 +
      n / 256 % 256 * 256 + n % 256 = n
  omega

theorem length_encodeFrame (p : List Nat) :
    (encodeFrame p).length = 4 + p.length := by
  simp only [encodeFrame, List.length_append, length_be32enc]

theorem frameStream_nil : frameStream [] = [] := rfl

theorem frameStream_cons (f : List Nat) (fs : List (List Nat)) :
    frameStream (f :: fs) = encodeFrame f ++ frameStream fs := by
  simp [frameStream]

theorem frameStream_append (a b : List (List Nat)) :
    frameStream (a ++ b) = frameStream a ++ frameStream b := by
  simp [frameStream]

theorem length_frameStream_ge (fs : List (List Nat)) :
    fs.length ≤ (frameStream fs).length := by
  induction fs with
  | nil => simp [frameStream_nil]
  | cons f t ih =>
      rw [frameStream_cons]
      simp only [List.length_cons, List.length_append, length_encodeFrame]
      omega

/-! ### Behaviour of the buffer-draining loop -/

theorem drainAux_succ (fuel : Nat) (buffer : List Nat) :
    drainAux (fuel + 1) buffer =
      if 4 ≤ buffer.length then
        if buffer.length < 4 + readBE32 buffer then
          if 65536 < buffer.length then ([], []) else ([], buffer)
        else
          ((buffer.drop 4).take (readBE32 buffer) ::
             (drainAux fuel (buffer.drop (4 + readBE32 buffer))).1,
           (drainAux fuel (buffer.drop (4 + readBE32 buffer))).2)
      else ([], buffer) := rfl

/-- With fewer than 4 buffered bytes the draining loop is not entered. -/
theorem drainAux_small (fuel : Nat) (buffer : List Nat)
    (h : buffer.length < 4) : drainAux fuel buffer = ([], buffer) := by
  cases fuel with
  | zero => rfl
  | succ g =>
      rw [drainAux_succ]
      rw [if_neg (by omega)]

/-- An incomplete declared frame leaves the buffer untouched (waiting for
more data) as long as the buffer is within the 65536-byte cap. -/
theorem drainAux_wait (fuel : Nat) (buffer : List Nat)
    (h4 : 4 ≤ buffer.length)
    (hinc : buffer.length < 4 + readBE32 buffer)
    (hcap : buffer.length ≤ 65536) :
    drainAux fuel buffer = ([], buffer) := by
  cases fuel with
  | zero => rfl
  | succ g =>
      rw [drainAux_succ, if_pos h4, if_pos hinc, if_neg (by omega)]

/-- An incomplete declared frame in a buffer beyond the 65536-byte cap
causes the whole buffer to be discarded. -/
theorem drainAux_overflow (fuel : Nat) (buffer : List Nat)
    (h4 : 4 ≤ buffer.length)
    (hinc : buffer.length < 4 + readBE32 buffer)
    (hbig : 65536 < buffer.length) (hf : fuel ≠ 0) :
    drainAux fuel buffer = ([], []) := by
  cases fuel with
  | zero => exact absurd rfl hf
  | succ g =>
      rw [drainAux_succ, if_pos h4, if_pos hinc, if_pos hbig]

/-- A leftover that is a proper (possibly empty) leading part of one frame:
either the stream is finished, or the next frame is `g` and the leftover
is a strict front segment of `encodeFrame g`. -/
def TailPrefixOk (tail : List Nat) (fs : List (List Nat)) : Prop :=
  (fs = [] ∧ tail = []) ∨
  ∃ g gs r, fs = g :: gs ∧ tail ++ r = encodeFrame g ∧ 0 < r.length

/-- A leftover buffer on which the draining loop correctly waits: within
the cap, and either shorter than a header or shorter than its declared
frame. -/
def Tailok (tail : List Nat) : Prop :=
  tail.length ≤ 65536 ∧ (tail.length < 4 ∨ tail.length < 4 + readBE32 tail)

theorem readBE32_of_front (tail r g : List Nat) (L : Nat)
    (henc : tail ++ r = be32enc L ++ g) (h4 : 4 ≤ tail.length)
    (hL : L < 4294967296) : readBE32 tail = L := by
  have htake : tail.take 4 = be32enc L := by
    have h1 : (tail ++ r).take 4 = tail.take 4 := by
      rw [List.take_append_eq_append_take]
      have : 4 - tail.length = 0 := by omega
      rw [this]
      simp
    have h2 : (be32enc L ++ g).take 4 = be32enc L := by
      rw [List.take_append_eq_append_take]
      have h3 : (be32enc L).take 4 = be32enc L :=
        List.take_of_length_le (by rw [length_be32enc])
      have h4' : 4 - (be32enc L).length = 0 := by rw [length_be32enc]
      rw [h3, h4']
      simp
    rw [← h1, henc, h2]
  have hsplit : tail = be32enc L ++ tail.drop 4 := by
    rw [← htake]
    exact (List.take_append_drop 4 tail).symm
  rw [hsplit]
  exact readBE32_be32enc_append L hL (tail.drop 4)

theorem tailok_of_tailPrefixOk (tail : List Nat) (fs : List (List Nat))
    (hb : ∀ f ∈ fs, f.length ≤ 65533) (h : TailPrefixOk tail fs) :
    Tailok tail := by
  rcases h with ⟨_, rfl⟩ | ⟨g, gs, r, rfl, henc, hr⟩
  · exact ⟨by simp, Or.inl (by simp)⟩
  · have hg : g.length ≤ 65533 := hb g (List.mem_cons_self g gs)
    have hlen : tail.length + r.length = 4 + g.length := by
      have := congrArg List.length henc
      simpa [length_encodeFrame] using this
    refine ⟨by omega, ?_⟩
    by_cases h4 : tail.length < 4
    · exact Or.inl h4
    · right
      have hread : readBE32 tail = g.length :=
        readBE32_of_front tail r g g.length henc (by omega) (by omega)
      omega

/-- Draining a buffer made of whole frames followed by a well-behaved
leftover extracts exactly those frames' payloads in order and keeps the
leftover. -/
theorem drainAux_stream (fs : List (List Nat)) (tail : List Nat)
    (fuel : Nat) (hlen : ∀ f ∈ fs, f.length < 4294967296)
    (hfuel : fs.length ≤ fuel) (htail : Tailok tail) :
    drainAux fuel (frameStream fs ++ tail) = (fs, tail) := by
  induction fs generalizing fuel with
  | nil =>
      simp only [frameStream_nil, List.nil_append]
      by_cases h4 : 4 ≤ tail.length
      · have hinc : tail.length < 4 + readBE32 tail := by
          rcases htail.2 with h | h
          · omega
          · exact h
        exact drainAux_wait fuel tail h4 hinc htail.1
      · exact drainAux_small fuel tail (by omega)
  | cons f fs ih =>
      cases fuel with
      | zero => simp at hfuel
      | succ g =>
          have hf : f.length < 4294967296 := hlen f (List.mem_cons_self f fs)
          rw [frameStream_cons, List.append_assoc]
          have hbuf : encodeFrame f ++ (frameStream fs ++ tail) =
              be32enc f.length ++ (f ++ (frameStream fs ++ tail)) := by
            simp [encodeFrame, List.append_assoc]
          have hblen : (encodeFrame f ++ (frameStream fs ++ tail)).length =
              4 + f.length + (frameStream fs ++ tail).length := by
            simp only [List.length_append, length_encodeFrame]
          have hread : readBE32 (encodeFrame f ++ (frameStream fs ++ tail)) =
              f.length := by
            rw [hbuf]
            exact readBE32_be32enc_append f.length hf _
          rw [drainAux_succ]
          rw [if_pos (by omega), hread, if_neg (by omega)]
          have hdrop4 : (encodeFrame f ++ (frameStream fs ++ tail)).drop 4 =
              f ++ (frameStream fs ++ tail) := by
            rw [hbuf, ← length_be32enc f.length]
            exact List.drop_left _ _
          have htake : ((encodeFrame f ++ (frameStream fs ++ tail)).drop 4).take
              f.length = f := by
            rw [hdrop4]
            exact List.take_left f _
          have hrest : (encodeFrame f ++ (frameStream fs ++ tail)).drop
              (4 + f.length) = frameStream fs ++ tail := by
            have : 4 + f.length = (encodeFrame f).length := by
              rw [length_encodeFrame]
            rw [this]
            exact List.drop_left _ _
          rw [htake, hrest,
            ih g (fun x hx => hlen x (List.mem_cons_of_mem f hx)) (by
              simp only [List.length_cons] at hfuel
              omega)]

/-- Any leading segment of a frame stream splits into a run of whole
frames followed by a proper front segment of the next frame. -/
theorem stream_split (fs : List (List Nat)) (p q : List Nat)
    (h : p ++ q = frameStream fs) :
    ∃ fs1 fs2 tail, fs = fs1 ++ fs2 ∧ p = frameStream fs1 ++ tail ∧
      TailPrefixOk tail fs2 := by
  induction fs generalizing p q with
  | nil =>
      rw [frameStream_nil] at h
      obtain ⟨hp, _⟩ := List.append_eq_nil.mp h
      exact ⟨[], [], [], by simp, by simp [hp, frameStream_nil],
        Or.inl ⟨rfl, rfl⟩⟩
  | cons f fs ih =>
      rw [frameStream_cons] at h
      by_cases hlt : p.length < (encodeFrame f).length
      · have hp : p = (encodeFrame f).take p.length := by
          have h1 : (p ++ q).take p.length = p := List.take_left p q
          rw [h] at h1
          rw [← h1, List.take_append_eq_append_take]
          have : p.length - (encodeFrame f).length = 0 := by omega
          rw [this]
          simp
        refine ⟨[], f :: fs, p, by simp, by simp [frameStream_nil],
          Or.inr ⟨f, fs, (encodeFrame f).drop p.length, rfl, ?_, ?_⟩⟩
        · calc p ++ (encodeFrame f).drop p.length
              = (encodeFrame f).take p.length ++ (encodeFrame f).drop p.length
                := by rw [← hp]
            _ = encodeFrame f := List.take_append_drop _ _
        · rw [List.length_drop]
          omega
      · push_neg at hlt
        have h1 : p.take (encodeFrame f).length = encodeFrame f := by
          have h2 : (p ++ q).take (encodeFrame f).length =
              p.take (encodeFrame f).length := by
            rw [List.take_append_eq_append_take]
            have : (encodeFrame f).length - p.length = 0 := by omega
            rw [this]
            simp
          have h3 : (encodeFrame f ++ frameStream fs).take
              (encodeFrame f).length = encodeFrame f := List.take_left _ _
          rw [← h2, h, h3]
        have hp : encodeFrame f ++ p.drop (encodeFrame f).length = p := by
          calc encodeFrame f ++ p.drop (encodeFrame f).length
              = p.take (encodeFrame f).length ++ p.drop (encodeFrame f).length
                := by rw [h1]
            _ = p := List.take_append_drop _ _
        have hq : p.drop (encodeFrame f).length ++ q = frameStream fs := by
          have h4 : encodeFrame f ++ (p.drop (encodeFrame f).length ++ q) =
              encodeFrame f ++ frameStream fs := by
            rw [← List.append_assoc, hp, h]
          exact List.append_cancel_left h4
        obtain ⟨fs1, fs2, tail, hfs, hp', htp⟩ := ih _ _ hq
        refine ⟨f :: fs1, fs2, tail, by simp [hfs], ?_, htp⟩
        rw [frameStream_cons, List.append_assoc, ← hp', hp]

/-- Feeding successive chunks whose concatenation completes a frame stream
(with every frame within the buffer cap) extracts exactly the stream's
payloads and finishes with an empty buffer. -/
theorem feedAll_spec (chunks : List (List Nat)) (fs : List (List Nat))
    (tail : List Nat) (hb : ∀ f ∈ fs, f.length ≤ 65533)
    (htp : TailPrefixOk tail fs)
    (hjoin : tail ++ chunks.flatten = frameStream fs) :
    feedAll tail chunks = (fs, []) := by
  induction chunks generalizing fs tail with
  | nil =>
      simp only [List.flatten_nil, List.append_nil] at hjoin
      rcases htp with ⟨hfs, htail⟩ | ⟨g, gs, r, hfs, henc, hr⟩
      · subst hfs
        subst htail
        rfl
      · exfalso
        subst hfs
        have hlen1 : tail.length + r.length = (encodeFrame g).length := by
          have := congrArg List.length henc
          simpa using this
        have hlen2 : tail.length =
            (encodeFrame g).length + (frameStream gs).length := by
          have := congrArg List.length hjoin
          rw [frameStream_cons] at this
          simpa using this
        omega
  | cons c cs ih =>
      have hsplit : (tail ++ c) ++ cs.flatten = frameStream fs := by
        rw [← hjoin, List.flatten_cons]
        simp [List.append_assoc]
      obtain ⟨fs1, fs2, tail', hfs, hp, htp'⟩ :=
        stream_split fs (tail ++ c) cs.flatten hsplit
      have hb1 : ∀ f ∈ fs1, f.length < 4294967296 := by
        intro f hf
        have := hb f (by rw [hfs]; exact List.mem_append_left fs2 hf)
        omega
      have hb2 : ∀ f ∈ fs2, f.length ≤ 65533 := by
        intro f hf
        exact hb f (by rw [hfs]; exact List.mem_append_right fs1 hf)
      have hfuel : fs1.length ≤ (frameStream fs1 ++ tail').length := by
        have := length_frameStream_ge fs1
        simp only [List.length_append]
        omega
      have hdrain : drainBuffer (tail ++ c) = (fs1, tail') := by
        unfold drainBuffer
        rw [hp]
        exact drainAux_stream fs1 tail' _ hb1 hfuel
          (tailok_of_tailPrefixOk tail' fs2 hb2 htp')
      have hjoin' : tail' ++ cs.flatten = frameStream fs2 := by
        have hx : frameStream fs1 ++ (tail' ++ cs.flatten) =
            frameStream fs1 ++ frameStream fs2 := by
          rw [← List.append_assoc, ← hp, hsplit, hfs, frameStream_append]
        exact List.append_cancel_left hx
      have hrec := ih fs2 tail' hb2 htp' hjoin'
      have hstep : feedAll tail (c :: cs) =
          ((drainBuffer (tail ++ c)).1 ++
             (feedAll (drainBuffer (tail ++ c)).2 cs).1,
           (feedAll (drainBuffer (tail ++ c)).2 cs).2) := rfl
      rw [hstep, hdrain]
      simp only [hrec]
      rw [hfs]

theorem feedAll_nil (buf : List Nat) : feedAll buf [] = ([], buf) := rfl

theorem feedAll_cons (buf c : List Nat) (cs : List (List Nat)) :
    feedAll buf (c :: cs) =
      ((drainBuffer (buf ++ c)).1 ++ (feedAll (drainBuffer (buf ++ c)).2 cs).1,
       (feedAll (drainBuffer (buf ++ c)).2 cs).2) := rfl

/-- The empty leftover is a proper front segment of any stream. -/
theorem tailPrefixOk_nil (fs : List (List Nat)) : TailPrefixOk [] fs := by
  cases fs with
  | nil => exact Or.inl ⟨rfl, rfl⟩
  | cons g gs =>
      refine Or.inr ⟨g, gs, encodeFrame g, rfl, by simp, ?_⟩
      rw [length_encodeFrame]
      omega

namespace TowelTransportClient

theorem handle_message_traceIdMap (s : State) (m : Msg) :
    (handle_message s m).traceIdMap = s.traceIdMap := by
  unfold handle_message
  split
  · split
    · rfl
    · rfl
  · rfl

theorem handle_message_deliver (s : State) (m : Msg) (rid : String)
    (hmap : dget s.traceIdMap (m.traceId.getD "") = some rid)
    (hne : rid ≠ "") (hmem : dmemb rid s.pending = true) :
    handle_message s m =
      { s with responses := dinsert rid m s.responses,
               pending := dinsert rid true s.pending } := by
  unfold handle_message
  rw [hmap]
  simp [hne, hmem]

theorem handle_message_preserve (s : State) (m : Msg) (r : String)
    (h : dget s.traceIdMap (m.traceId.getD "") ≠ some r) :
    dget (handle_message s m).responses r = dget s.responses r ∧
    dget (handle_message s m).pending r = dget s.pending r := by
  unfold handle_message
  split
  · next rid hmap =>
      have hrr : rid ≠ r := fun e => h (e ▸ hmap)
      split
      · constructor
        · show dget (dinsert rid m s.responses) r = dget s.responses r
          rw [dget_dinsert]
          simp [hrr]
        · show dget (dinsert rid true s.pending) r = dget s.pending r
          rw [dget_dinsert]
          simp [hrr]
      · exact ⟨rfl, rfl⟩
  · exact ⟨rfl, rfl⟩

theorem foldl_handle_traceIdMap (ms : List Msg) (s : State) :
    (ms.foldl handle_message s).traceIdMap = s.traceIdMap := by
  induction ms generalizing s with
  | nil => rfl
  | cons m tl ih =>
      simp only [List.foldl_cons]
      rw [ih, handle_message_traceIdMap]

theorem foldl_handle_preserve (ms : List Msg) (s : State) (r : String)
    (h : ∀ m ∈ ms, dget s.traceIdMap (m.traceId.getD "") ≠ some r) :
    dget (ms.foldl handle_message s).responses r = dget s.responses r ∧
    dget (ms.foldl handle_message s).pending r = dget s.pending r := by
  induction ms generalizing s with
  | nil => exact ⟨rfl, rfl⟩
  | cons m tl ih =>
      simp only [List.foldl_cons]
      have hstep := handle_message_preserve s m r (h m (List.mem_cons_self m tl))
      have htl : ∀ m' ∈ tl,
          dget (handle_message s m).traceIdMap (m'.traceId.getD "") ≠ some r := by
        intro m' hm'
        rw [handle_message_traceIdMap]
        exact h m' (List.mem_cons_of_mem m hm')
      obtain ⟨h1, h2⟩ := ih (handle_message s m) htl
      exact ⟨h1.trans hstep.1, h2.trans hstep.2⟩

/-- Delivering any sequence of messages with pairwise-distinct correlation
targets signals each targeted pending request with exactly its own
message. -/
theorem fold_deliver (ms : List Msg) (s : State)
    (hall : ∀ m ∈ ms, ∃ rid,
      dget s.traceIdMap (m.traceId.getD "") = some rid ∧ rid ≠ "" ∧
      dmemb rid s.pending = true)
    (hpw : ms.Pairwise (fun m m' =>
      dget s.traceIdMap (m.traceId.getD "") ≠
      dget s.traceIdMap (m'.traceId.getD ""))) :
    ∀ m ∈ ms, ∀ rid, dget s.traceIdMap (m.traceId.getD "") = some rid →
      dget (ms.foldl handle_message s).responses rid = some m ∧
      dget (ms.foldl handle_message s).pending rid = some true := by
  induction ms generalizing s with
  | nil => intro m hm; simp at hm
  | cons m0 tl ih =>
      intro m hm rid hrid
      obtain ⟨r0, hmap0, hne0, hmem0⟩ := hall m0 (List.mem_cons_self m0 tl)
      have hdlv := handle_message_deliver s m0 r0 hmap0 hne0 hmem0
      have hmap' : (handle_message s m0).traceIdMap = s.traceIdMap :=
        handle_message_traceIdMap s m0
      simp only [List.foldl_cons]
      rcases List.mem_cons.mp hm with heq | hmtl
      · -- the head message: its slot is untouched by the tail deliveries
        subst heq
        obtain rfl : r0 = rid := by
          rw [hmap0] at hrid; exact Option.some.inj hrid
        have hside : ∀ m' ∈ tl,
            dget (handle_message s m).traceIdMap (m'.traceId.getD "") ≠
            some r0 := by
          intro m' hm'
          rw [hmap']
          have hne := (List.pairwise_cons.mp hpw).1 m' hm'
          exact fun e => hne (hmap0.trans e.symm)
        obtain ⟨h1, h2⟩ :=
          foldl_handle_preserve tl (handle_message s m) r0 hside
        refine ⟨h1.trans ?_, h2.trans ?_⟩
        · rw [hdlv]
          show dget (dinsert r0 m s.responses) r0 = some m
          rw [dget_dinsert]
          simp
        · rw [hdlv]
          show dget (dinsert r0 true s.pending) r0 = some true
          rw [dget_dinsert]
          simp
      · -- a tail message: apply the induction hypothesis to the new state
        have hall' : ∀ m' ∈ tl, ∃ rid',
            dget (handle_message s m0).traceIdMap (m'.traceId.getD "") =
              some rid' ∧ rid' ≠ "" ∧
            dmemb rid' (handle_message s m0).pending = true := by
          intro m' hm'
          obtain ⟨rid', ha, hb, hc⟩ := hall m' (List.mem_cons_of_mem m0 hm')
          refine ⟨rid', by rw [hmap']; exact ha, hb, ?_⟩
          rw [hdlv]
          exact dmemb_dinsert_of rid' r0 true s.pending hc
        have hpw' : tl.Pairwise (fun ma mb =>
            dget (handle_message s m0).traceIdMap (ma.traceId.getD "") ≠
            dget (handle_message s m0).traceIdMap (mb.traceId.getD "")) := by
          have hp2 := (List.pairwise_cons.mp hpw).2
          simpa [hmap'] using hp2
        exact ih (handle_message s m0) hall' hpw' m hmtl rid
          (by rw [hmap']; exact hrid)

end TowelTransportClient

/-! ### Claim theorems -/

/-- **C1.** The claim requires `disconnect()` to release every blocked
`sendRequest` caller with a `Disconnected` failure.  The code does not:
with one caller blocked on pending request `"r"` (its event unset),
`TowelTransportClient.disconnect` merely stops the listener and closes the
socket, leaving the pending event unset and the entry in place, so the
blocked caller can only wait out its own timeout and then raises the
request-timeout error; `IPCCommunicator.disconnect` behaves the same way
with the shared `response_event` left unset. -/
theorem claim1_disconnect_leaves_waiters_blocked :
    TowelTransportClient.disconnect
        { socketSome := true, connected := true, running := true,
          pending := [("r", false)], responses := [],
          traceIdMap := [("t", "r")] } =
      { socketSome := false, connected := false, running := false,
        pending := [("r", false)], responses := [],
        traceIdMap := [("t", "r")] } ∧
    IPCCommunicator.disconnect
        { socketSome := true, connected := true, requestId := 1,
          pendingResponses := [("1", none)], responseEventSet := false,
          notificationCallback := false, notifications := [],
          listenerStarted := true } =
      { socketSome := false, connected := false, requestId := 1,
        pendingResponses := [("1", none)], responseEventSet := false,
        notificationCallback := false, notifications := [],
        listenerStarted := true } :=
  ⟨rfl, rfl⟩

/-- **C4.** A `send_request` whose response never arrives (`arrival =
none`, i.e. the wait expired unsignaled) fails with the request-timeout
error, and its pending entry — and for the Towel client also its
`trace_id_map` entry — is removed in the state handed back together with
the raised error, in both `TowelTransportClient.send_request` and
`IPCCommunicator.send_request`. -/
theorem claim4_timeout_deregisters_and_fails :
    ∀ (s : TowelTransportClient.State) (rid tid : String)
      (t : IPCCommunicator.State),
      s.connected = true →
      IPCCommunicator.is_connected t = true →
      ((TowelTransportClient.send_request s rid tid true none).2 =
          TowelTransportClient.Result.errTimeout ∧
        dget (TowelTransportClient.send_request s rid tid true none).1.pending
          rid = none ∧
        dget (TowelTransportClient.send_request s rid tid true none).1.traceIdMap
          tid = none) ∧
      ((IPCCommunicator.send_request t true true none).2 =
          IPCCommunicator.Result.errTimeout ∧
        dget (IPCCommunicator.send_request t true true none).1.pendingResponses
          (Nat.repr (t.requestId + 1)) = none) := by
  intro s rid tid t hs ht
  constructor
  · simp [TowelTransportClient.send_request, hs, dget_dinsert, dget_derase]
  · simp [IPCCommunicator.send_request, ht, dget_dinsert, dget_derase]

/-- A closed instance of C4 with a concrete state. -/
theorem claim4_witness :
    (TowelTransportClient.send_request
        { socketSome := true, connected := true, running := true,
          pending := [], responses := [], traceIdMap := [] }
        "r" "t" true none).2 = TowelTransportClient.Result.errTimeout ∧
    dget (TowelTransportClient.send_request
        { socketSome := true, connected := true, running := true,
          pending := [], responses := [], traceIdMap := [] }
        "r" "t" true none).1.pending "r" = none :=
  have h := claim4_timeout_deregisters_and_fails
    { socketSome := true, connected := true, running := true,
      pending := [], responses := [], traceIdMap := [] }
    "r" "t"
    { socketSome := true, connected := true, requestId := 0,
      pendingResponses := [], responseEventSet := false,
      notificationCallback := false, notifications := [],
      listenerStarted := true }
    rfl rfl
  ⟨h.1.1, h.1.2.1⟩

/-- **C3 (amended).** Feeding a valid frame stream into the listener
buffer in arbitrary chunks yields exactly the same payload sequence as
feeding the whole stream at once — provided every frame's payload is at
most 65533 bytes, so that no incomplete frame can ever push the buffer
past the 65536-byte cap (beyond which `_listen_loop` discards the
buffer; see the counterexample for a larger frame). -/
theorem claim3_chunking_equivalence_bounded :
    ∀ (fs chunks : List (List Nat)),
      (∀ f ∈ fs, f.length ≤ 65533) →
      chunks.flatten = frameStream fs →
      (feedAll [] chunks).1 = (feedAll [] [frameStream fs]).1 ∧
      feedAll [] chunks = (fs, []) := by
  intro fs chunks hb hj
  have h1 : feedAll [] chunks = (fs, []) :=
    feedAll_spec chunks fs [] hb (tailPrefixOk_nil fs) (by simpa using hj)
  have h2 : feedAll [] [frameStream fs] = (fs, []) :=
    feedAll_spec [frameStream fs] fs [] hb (tailPrefixOk_nil fs) (by simp)
  exact ⟨by rw [h1, h2], h1⟩

/-- **C3 counterexample.** For a single valid frame whose payload has
65534 bytes (total frame size 65538), feeding the stream in two chunks of
65537 and 1 bytes makes the buffer exceed the 65536-byte cap while the
frame is still incomplete, so `_listen_loop` clears the buffer and the
payload is lost — while feeding the identical byte stream in one chunk
delivers it.  This falsifies the claim's universal quantification over
all valid frame sequences and chunk boundaries. -/
theorem claim3_counterexample_buffer_cap :
    [(encodeFrame (List.replicate 65534 7)).take 65537,
     (encodeFrame (List.replicate 65534 7)).drop 65537].flatten =
      frameStream [List.replicate 65534 7] ∧
    (feedAll [] [frameStream [List.replicate 65534 7]]).1 =
      [List.replicate 65534 7] ∧
    (feedAll [] [(encodeFrame (List.replicate 65534 7)).take 65537,
                 (encodeFrame (List.replicate 65534 7)).drop 65537]).1 = [] := by
  have hplen : (List.replicate 65534 (7 : Nat)).length = 65534 :=
    List.length_replicate 65534 7
  have henc : (encodeFrame (List.replicate 65534 (7 : Nat))).length = 65538 := by
    rw [length_encodeFrame, hplen]
  have hfs1 : frameStream [List.replicate 65534 (7 : Nat)] =
      encodeFrame (List.replicate 65534 7) := by
    rw [frameStream_cons, frameStream_nil, List.append_nil]
  refine ⟨?_, ?_, ?_⟩
  · show (encodeFrame (List.replicate 65534 7)).take 65537 ++
        ((encodeFrame (List.replicate 65534 7)).drop 65537 ++ []) =
      frameStream [List.replicate 65534 7]
    rw [List.append_nil, List.take_append_drop, hfs1]
  · have hstream : drainBuffer (frameStream [List.replicate 65534 (7 : Nat)]) =
        ([List.replicate 65534 7], []) := by
      unfold drainBuffer
      rw [show frameStream [List.replicate 65534 (7 : Nat)] =
            frameStream [List.replicate 65534 7] ++ []
          from (List.append_nil _).symm]
      refine drainAux_stream [List.replicate 65534 7] [] _ ?_ ?_
        ⟨by rw [List.length_nil]; omega, Or.inl (by rw [List.length_nil]; omega)⟩
      · intro f hf
        rw [List.mem_singleton] at hf
        subst hf
        rw [hplen]
        omega
      · rw [List.append_nil, hfs1, henc,
          show ([List.replicate 65534 (7 : Nat)] :
            List (List Nat)).length = 1 from rfl]
        omega
    rw [feedAll_cons, List.nil_append, hstream]
    rw [feedAll_nil]
    exact List.append_nil _
  · have hc1eq : (encodeFrame (List.replicate 65534 (7 : Nat))).take 65537 =
        be32enc 65534 ++ (List.replicate 65534 (7 : Nat)).take 65533 := by
      unfold encodeFrame
      rw [hplen, List.take_append_eq_append_take,
        List.take_of_length_le (by rw [length_be32enc]; omega),
        length_be32enc]
    have hc1len : ((encodeFrame (List.replicate 65534 (7 : Nat))).take
        65537).length = 65537 := by
      rw [List.length_take, henc]
      omega
    have hc2len : ((encodeFrame (List.replicate 65534 (7 : Nat))).drop
        65537).length = 1 := by
      rw [List.length_drop, henc]
    have hread : readBE32 ((encodeFrame (List.replicate 65534 (7 : Nat))).take
        65537) = 65534 := by
      rw [hc1eq]
      exact readBE32_be32enc_append 65534 (by omega) _
    have hd1 : drainBuffer ((encodeFrame (List.replicate 65534 (7 : Nat))).take
        65537) = ([], []) := by
      unfold drainBuffer
      refine drainAux_overflow _ _ ?_ ?_ ?_ ?_
      · rw [hc1len]; omega
      · rw [hc1len, hread]; omega
      · rw [hc1len]; omega
      · rw [hc1len]; omega
    have hd2 : drainBuffer ((encodeFrame (List.replicate 65534 (7 : Nat))).drop
        65537) = ([], (encodeFrame (List.replicate 65534 (7 : Nat))).drop
          65537) := by
      unfold drainBuffer
      apply drainAux_small
      rw [hc2len]
      omega
    simp only [feedAll_cons, feedAll_nil, List.nil_append, hd1, hd2,
      List.append_nil]

/-- A closed instance of the amended C3: the two-frame stream for payloads
`[1, 2]` and `[3]`, cut at chunk boundaries that split both the length
prefix and the payload, parses to the same payloads as the whole stream. -/
theorem claim3_witness :
    (∀ f ∈ ([[1, 2], [3]] : List (List Nat)), f.length ≤ 65533) ∧
    feedAll [] [[0, 0], [0, 2, 1], [2, 0, 0, 0, 1, 3]] = ([[1, 2], [3]], []) :=
  ⟨by decide,
    (claim3_chunking_equivalence_bounded [[1, 2], [3]]
      [[0, 0], [0, 2, 1], [2, 0, 0, 0, 1, 3]] (by decide) (by decide)).2⟩

/-- **C2 (amended).** In `TowelTransportClient`, responses are matched to
requests purely by correlation identifier: for any N registered requests
with distinct request ids and distinct trace ids, and any delivery order
of N responses carrying exactly those trace ids (any permutation), each
response ends up stored under — and signals the event of — precisely the
request id that its own trace id maps to.  (As stated over both cited
implementations the claim is false: see the counterexample on
`TowelTransportIPC.handle_message`, which routes by arrival order.) -/
theorem claim2_towel_correlation_by_identifier :
    ∀ (reqs : List (String × String)) (ms : List Msg),
      (reqs.map Prod.fst).Nodup →
      (reqs.map Prod.snd).Nodup →
      (∀ p ∈ reqs, p.1 ≠ "") →
      (ms.map (fun m => m.traceId.getD "")).Perm (reqs.map Prod.snd) →
      ∀ m ∈ ms, ∀ r t, (r, t) ∈ reqs → m.traceId.getD "" = t →
        dget (ms.foldl TowelTransportClient.handle_message
            (TowelTransportClient.registered reqs)).responses r = some m ∧
        dget (ms.foldl TowelTransportClient.handle_message
            (TowelTransportClient.registered reqs)).pending r = some true := by
  intro reqs ms hr ht hz hperm m hm r t hrt htid
  have hmapeq : (TowelTransportClient.registered reqs).traceIdMap =
      reqs.map (fun p => (p.2, p.1)) := rfl
  have hpendeq : (TowelTransportClient.registered reqs).pending =
      reqs.map (fun p => (p.1, false)) := rfl
  -- every delivered message targets a registered, truthy, pending id
  have hall : ∀ m' ∈ ms, ∃ rid,
      dget (TowelTransportClient.registered reqs).traceIdMap
        (m'.traceId.getD "") = some rid ∧ rid ≠ "" ∧
      dmemb rid (TowelTransportClient.registered reqs).pending = true := by
    intro m' hm'
    have htid' : m'.traceId.getD "" ∈ reqs.map Prod.snd :=
      hperm.mem_iff.mp (List.mem_map_of_mem (fun m => m.traceId.getD "") hm')
    obtain ⟨p, hp, hp2⟩ := List.mem_map.mp htid'
    obtain ⟨p1, p2⟩ := p
    obtain rfl : p2 = m'.traceId.getD "" := hp2
    refine ⟨p1, ?_, hz (p1, _) hp, ?_⟩
    · rw [hmapeq]
      exact dget_swap_map reqs p1 _ ht hp
    · rw [hpendeq]
      unfold dmemb
      rw [dget_fst_map reqs p1 _ hp]
      rfl
  -- distinct trace ids induce pairwise-distinct correlation targets
  have hpw : ms.Pairwise (fun ma mb =>
      dget (TowelTransportClient.registered reqs).traceIdMap
        (ma.traceId.getD "") ≠
      dget (TowelTransportClient.registered reqs).traceIdMap
        (mb.traceId.getD "")) := by
    have hnd : (ms.map (fun m => m.traceId.getD "")).Nodup :=
      hperm.nodup_iff.mpr ht
    have hpwtid : ms.Pairwise (fun ma mb =>
        ma.traceId.getD "" ≠ mb.traceId.getD "") :=
      (List.pairwise_map.mp hnd)
    refine hpwtid.imp_of_mem ?_
    intro ma mb hma hmb hne heq
    obtain ⟨ra, hra, _, _⟩ := hall ma hma
    obtain ⟨rb, hrb, _, _⟩ := hall mb hmb
    rw [hra, hrb] at heq
    obtain rfl : ra = rb := Option.some.inj heq
    apply hne
    refine dget_inj_of_nodup_values (reqs.map (fun p => (p.2, p.1))) ?_
      _ _ ra (hmapeq ▸ hra) (hmapeq ▸ hrb)
    have : (reqs.map (fun p => (p.2, p.1))).map Prod.snd =
        reqs.map Prod.fst := by
      simp
    rw [this]
    exact hr
  have htarget : dget (TowelTransportClient.registered reqs).traceIdMap
      (m.traceId.getD "") = some r := by
    rw [hmapeq, htid]
    exact dget_swap_map reqs r t ht hrt
  exact TowelTransportClient.fold_deliver ms
    (TowelTransportClient.registered reqs) hall hpw m hm r htarget

/-- **C2 counterexample.** `TowelTransportIPC._handle_message`
(trae_client_final.py) does not match by identifier: with two pending
requests `"r1"`, `"r2"` (in insertion order) and a response explicitly
carrying `request_id = "r2"`, the response is stored under `"r1"` — the
first unset entry — and `"r2"` receives nothing, refuting the claim that
each response is routed to the waiter with the matching identifier. -/
theorem claim2_counterexample_final_routes_by_order :
    (Msg.requestId { requestId := some "r2" } = some "r2") ∧
    dget (TowelTransportIPC.handle_message
        { socketSome := true, connected := true,
          pending := [("r1", false), ("r2", false)], responses := [] }
        { requestId := some "r2" }).responses "r1" =
      some { requestId := some "r2" } ∧
    dget (TowelTransportIPC.handle_message
        { socketSome := true, connected := true,
          pending := [("r1", false), ("r2", false)], responses := [] }
        { requestId := some "r2" }).responses "r2" = none :=
  ⟨rfl, rfl, rfl⟩

/-- A closed instance of the amended C2: two requests, responses delivered
in reversed order, each stored under its own request id. -/
theorem claim2_witness :
    dget ([({ traceId := some "t2" } : Msg), { traceId := some "t1" }].foldl
        TowelTransportClient.handle_message
        (TowelTransportClient.registered [("r1", "t1"), ("r2", "t2")])).responses
      "r2" = some { traceId := some "t2" } ∧
    dget ([({ traceId := some "t2" } : Msg), { traceId := some "t1" }].foldl
        TowelTransportClient.handle_message
        (TowelTransportClient.registered [("r1", "t1"), ("r2", "t2")])).responses
      "r1" = some { traceId := some "t1" } :=
  ⟨(claim2_towel_correlation_by_identifier [("r1", "t1"), ("r2", "t2")]
      [{ traceId := some "t2" }, { traceId := some "t1" }]
      (by decide) (by decide) (by decide) (by decide)
      { traceId := some "t2" } (List.mem_cons_self _ _)
      "r2" "t2" (by decide) rfl).1,
   (claim2_towel_correlation_by_identifier [("r1", "t1"), ("r2", "t2")]
      [{ traceId := some "t2" }, { traceId := some "t1" }]
      (by decide) (by decide) (by decide) (by decide)
      { traceId := some "t1" }
      (List.mem_cons_of_mem _ (List.mem_cons_self _ _))
      "r1" "t1" (by decide) rfl).1⟩

/-- **C5.** Every frame built by `send_request` / `_send_message` is the
4-byte big-endian unsigned encoding of the payload's exact byte length
followed by the payload bytes: the prefix has length 4, every prefix byte
is below 256, dropping the prefix recovers the payload unchanged, and
reading the prefix back as a big-endian 32-bit integer yields exactly the
payload's byte length (for payloads below the `struct.pack('>I', ...)`
bound of 2^32). -/
theorem claim5_frame_layout :
    ∀ (p : List Nat), p.length < 4294967296 →
      (encodeFrame p).length = 4 + p.length ∧
      (encodeFrame p).take 4 = be32enc p.length ∧
      (be32enc p.length).length = 4 ∧
      (∀ b ∈ be32enc p.length, b < 256) ∧
      (encodeFrame p).drop 4 = p ∧
      readBE32 (encodeFrame p) = p.length := by
  intro p hp
  refine ⟨length_encodeFrame p, ?_, length_be32enc p.length,
    be32enc_bytes_lt p.length, ?_, ?_⟩
  · show (be32enc p.length ++ p).take 4 = be32enc p.length
    rw [← length_be32enc p.length]
    exact List.take_left _ _
  · show (be32enc p.length ++ p).drop 4 = p
    rw [← length_be32enc p.length]
    exact List.drop_left _ _
  · show readBE32 (be32enc p.length ++ p) = p.length
    exact readBE32_be32enc_append p.length hp p

/-- A closed instance of C5 on the two-byte payload `"hi"`. -/
theorem claim5_witness :
    ([104, 105] : List Nat).length < 4294967296 ∧
    encodeFrame [104, 105] = [0, 0, 0, 2, 104, 105] ∧
    readBE32 (encodeFrame [104, 105]) = ([104, 105] : List Nat).length :=
  ⟨by decide, by decide,
    (claim5_frame_layout [104, 105] (by decide)).2.2.2.2.2⟩

/-- **C6.** A correctly framed payload whose bytes fail to parse is
discarded without stopping the loop: draining the stream still extracts
every frame (including the bad one), and dispatching the extracted frames
produces exactly the state that dispatching the stream without the bad
frame would — every well-formed frame after the bad one is still parsed
and delivered to `_handle_message`. -/
theorem claim6_malformed_frame_skipped :
    ∀ (decode : List Nat → Option Msg) (s : TowelTransportClient.State)
      (ps1 : List (List Nat)) (bad : List Nat) (ps2 : List (List Nat)),
      decode bad = none →
      (∀ f ∈ ps1 ++ bad :: ps2, f.length < 4294967296) →
      (drainBuffer (frameStream (ps1 ++ bad :: ps2))).1 =
        ps1 ++ bad :: ps2 ∧
      processPayloads decode TowelTransportClient.handle_message s
          (drainBuffer (frameStream (ps1 ++ bad :: ps2))).1 =
        processPayloads decode TowelTransportClient.handle_message s
          (ps1 ++ ps2) := by
  intro decode s ps1 bad ps2 hbad hlen
  have hdrain : drainBuffer (frameStream (ps1 ++ bad :: ps2)) =
      (ps1 ++ bad :: ps2, []) := by
    unfold drainBuffer
    rw [show frameStream (ps1 ++ bad :: ps2) =
          frameStream (ps1 ++ bad :: ps2) ++ []
        from (List.append_nil _).symm]
    refine drainAux_stream _ [] _ hlen ?_
      ⟨by rw [List.length_nil]; omega, Or.inl (by rw [List.length_nil]; omega)⟩
    rw [List.append_nil]
    exact length_frameStream_ge _
  refine ⟨by rw [hdrain], ?_⟩
  rw [hdrain]
  unfold processPayloads
  rw [List.foldl_append, List.foldl_append]
  simp only [List.foldl_cons, hbad]

/-- A closed instance of C6: stream the frames for payloads `[1]`, `[2]`,
`[1]` with a decoder that parses only `[1]`; dispatching the drained
frames equals dispatching with the undecodable middle frame removed. -/
theorem claim6_witness :
    ((fun p => if p = ([1] : List Nat) then some ({} : Msg) else none) [2]
      = none) ∧
    processPayloads
        (fun p => if p = ([1] : List Nat) then some ({} : Msg) else none)
        TowelTransportClient.handle_message
        { socketSome := true, connected := true, running := true,
          pending := [], responses := [], traceIdMap := [] }
        (drainBuffer (frameStream [[1], [2], [1]])).1 =
      processPayloads
        (fun p => if p = ([1] : List Nat) then some ({} : Msg) else none)
        TowelTransportClient.handle_message
        { socketSome := true, connected := true, running := true,
          pending := [], responses := [], traceIdMap := [] }
        [[1], [1]] :=
  ⟨rfl, (claim6_malformed_frame_skipped
    (fun p => if p = ([1] : List Nat) then some ({} : Msg) else none)
    { socketSome := true, connected := true, running := true,
      pending := [], responses := [], traceIdMap := [] }
    [[1]] [2] [[1]] rfl (by decide)).2⟩

/-- **C8 (amended).** A parsed payload whose correlation identifier is
absent from the pending table is safe — it signals no waiter, stores no
response, and removes nothing — but it is passed to the notification
handler only when its discriminator is not response-like: in
`IPCCommunicator` only a `type == 'notification'` payload reaches the
callback, and in `VSCodeIPCProtocol` only a payload whose type is none of
2/`'ok'`/3/`'err'`/`'cancel'` does.  A late *response* (response-typed
discriminator, unknown id) is silently dropped, contrary to the claim
that every unmatched payload is handed to the handler. -/
theorem claim8_unmatched_payload_safety :
    (∀ (s : IPCCommunicator.State) (m : Msg),
      dget s.pendingResponses (m.id.getD "") = none →
      (IPCCommunicator.handle_message s m).pendingResponses =
        s.pendingResponses ∧
      (IPCCommunicator.handle_message s m).responseEventSet =
        s.responseEventSet ∧
      (IPCCommunicator.handle_message s m).notifications =
        (if s.notificationCallback = true ∧
            pvalIsStr (m.type.getD (.str "unknown")) "notification" = true
         then s.notifications ++ [m] else s.notifications)) ∧
    (∀ (v : VSCodeIPCProtocol.State) (m : Msg),
      dget v.pendingRequests (m.id.getD "") = none →
      (VSCodeIPCProtocol.handle_message v m).pendingRequests =
        v.pendingRequests ∧
      (VSCodeIPCProtocol.handle_message v m).responses = v.responses ∧
      (VSCodeIPCProtocol.handle_message v m).responseEventSet =
        v.responseEventSet ∧
      (VSCodeIPCProtocol.handle_message v m).notifications =
        (if v.notificationCallback = true ∧
            (pvalIsNum (VSCodeIPCProtocol.msgType m) 2 ||
              pvalIsStr (VSCodeIPCProtocol.msgType m) "ok") = false ∧
            (pvalIsNum (VSCodeIPCProtocol.msgType m) 3 ||
              pvalIsStr (VSCodeIPCProtocol.msgType m) "err") = false ∧
            pvalIsStr (VSCodeIPCProtocol.msgType m) "cancel" = false
         then v.notifications ++ [m] else v.notifications)) := by
  constructor
  · intro s m h
    have hdm : dmemb (m.id.getD "") s.pendingResponses = false := by
      unfold dmemb
      rw [h]
      rfl
    have hmem : ¬ (m.id.getD "" ≠ "" ∧
        dmemb (m.id.getD "") s.pendingResponses = true) := by
      rintro ⟨_, hc⟩
      rw [hdm] at hc
      exact Bool.noConfusion hc
    unfold IPCCommunicator.handle_message
    by_cases hresp : pvalIsStr (m.type.getD (.str "unknown")) "response" = true
    · rw [if_pos hresp, if_neg hmem]
      refine ⟨rfl, rfl, ?_⟩
      rw [if_neg]
      rintro ⟨_, hn⟩
      rw [pvalIsStr_ne _ "response" "notification" (by decide) hresp] at hn
      exact Bool.noConfusion hn
    · rw [if_neg hresp]
      by_cases hnot :
          pvalIsStr (m.type.getD (.str "unknown")) "notification" = true
      · rw [if_pos hnot]
        by_cases hcb : s.notificationCallback = true
        · rw [if_pos hcb]
          exact ⟨rfl, rfl, by rw [if_pos ⟨hcb, hnot⟩]⟩
        · rw [if_neg hcb]
          exact ⟨rfl, rfl, by rw [if_neg (fun hc => hcb hc.1)]⟩
      · rw [if_neg hnot]
        exact ⟨rfl, rfl, by rw [if_neg (fun hc => hnot hc.2)]⟩
  · intro v m h
    have hdm : dmemb (m.id.getD "") v.pendingRequests = false := by
      unfold dmemb
      rw [h]
      rfl
    have hmem : ¬ (m.id.getD "" ≠ "" ∧
        dmemb (m.id.getD "") v.pendingRequests = true) := by
      rintro ⟨_, hc⟩
      rw [hdm] at hc
      exact Bool.noConfusion hc
    unfold VSCodeIPCProtocol.handle_message
    by_cases h1 : (pvalIsNum (VSCodeIPCProtocol.msgType m) 2 ||
        pvalIsStr (VSCodeIPCProtocol.msgType m) "ok") = true
    · rw [if_pos h1, if_neg hmem]
      refine ⟨rfl, rfl, rfl, ?_⟩
      rw [if_neg]
      rintro ⟨_, hx, _, _⟩
      rw [h1] at hx
      exact Bool.noConfusion hx
    · rw [if_neg h1]
      by_cases h2 : (pvalIsNum (VSCodeIPCProtocol.msgType m) 3 ||
          pvalIsStr (VSCodeIPCProtocol.msgType m) "err") = true
      · rw [if_pos h2, if_neg hmem]
        refine ⟨rfl, rfl, rfl, ?_⟩
        rw [if_neg]
        rintro ⟨_, _, hx, _⟩
        rw [h2] at hx
        exact Bool.noConfusion hx
      · rw [if_neg h2]
        by_cases h3 : pvalIsStr (VSCodeIPCProtocol.msgType m) "cancel" = true
        · rw [if_pos h3, if_neg hmem]
          refine ⟨rfl, rfl, rfl, ?_⟩
          rw [if_neg]
          rintro ⟨_, _, _, hx⟩
          rw [h3] at hx
          exact Bool.noConfusion hx
        · rw [if_neg h3]
          by_cases hcb : v.notificationCallback = true
          · rw [if_pos hcb]
            refine ⟨rfl, rfl, rfl, ?_⟩
            rw [if_pos ⟨hcb, Bool.of_not_eq_true h1,
              Bool.of_not_eq_true h2, Bool.of_not_eq_true h3⟩]
          · rw [if_neg hcb]
            exact ⟨rfl, rfl, rfl, by rw [if_neg (fun hc => hcb hc.1)]⟩

/-- **C8 counterexample.** A late response (`type = 2`, id `"99"` absent
from the empty pending table) arriving at a `VSCodeIPCProtocol` with a
registered notification callback is dropped without invoking the
callback: the state is returned completely unchanged, refuting the claim
that every unmatched payload is passed to the handler. -/
theorem claim8_counterexample_late_response_dropped :
    VSCodeIPCProtocol.handle_message
        { socketSome := true, connected := true, requestId := 5,
          pendingRequests := [], responses := [], responseEventSet := false,
          notificationCallback := true, notifications := [] }
        { type := some (.num 2), id := some "99" } =
      { socketSome := true, connected := true, requestId := 5,
        pendingRequests := [], responses := [], responseEventSet := false,
        notificationCallback := true, notifications := [] } ∧
    dget (VSCodeIPCProtocol.State.pendingRequests
        { socketSome := true, connected := true, requestId := 5,
          pendingRequests := [], responses := [], responseEventSet := false,
          notificationCallback := true, notifications := [] }) "99" = none ∧
    VSCodeIPCProtocol.State.notificationCallback
        { socketSome := true, connected := true, requestId := 5,
          pendingRequests := [], responses := [], responseEventSet := false,
          notificationCallback := true, notifications := [] } = true :=
  ⟨rfl, rfl, rfl⟩

/-- A closed instance of the amended C8: a notification-typed payload with
no pending match is handed to the registered callback, and the pending
table and event are untouched. -/
theorem claim8_witness :
    (IPCCommunicator.handle_message
        { socketSome := true, connected := true, requestId := 0,
          pendingResponses := [], responseEventSet := false,
          notificationCallback := true, notifications := [],
          listenerStarted := true }
        { type := some (.str "notification") }).pendingResponses = [] ∧
    (IPCCommunicator.handle_message
        { socketSome := true, connected := true, requestId := 0,
          pendingResponses := [], responseEventSet := false,
          notificationCallback := true, notifications := [],
          listenerStarted := true }
        { type := some (.str "notification") }).responseEventSet = false ∧
    (IPCCommunicator.handle_message
        { socketSome := true, connected := true, requestId := 0,
          pendingResponses := [], responseEventSet := false,
          notificationCallback := true, notifications := [],
          listenerStarted := true }
        { type := some (.str "notification") }).notifications =
      [{ type := some (.str "notification") }] := by
  have h := claim8_unmatched_payload_safety.1
    { socketSome := true, connected := true, requestId := 0,
      pendingResponses := [], responseEventSet := false,
      notificationCallback := true, notifications := [],
      listenerStarted := true }
    { type := some (.str "notification") } rfl
  refine ⟨h.1, h.2.1, h.2.2.trans ?_⟩
  rw [if_pos ⟨rfl, rfl⟩]
  rfl

/-- **C7.** Connecting to a non-existent endpoint path fails on the
pre-check branch (the spec's `EndpointNotFound`), without the socket
connection ever being attempted: the outcome is independent of what the
socket attempt would have done and the state is returned untouched, in
both `TowelTransportClient.connect` and `IPCCommunicator.connect`. -/
theorem claim7_endpoint_not_found :
    ∀ (s : TowelTransportClient.State) (att : TowelTransportClient.SockAttempt)
      (t : IPCCommunicator.State) (r : IPCCommunicator.SockRes),
      TowelTransportClient.connect s false att =
        (s, TowelTransportClient.ConnectOutcome.endpointNotFound) ∧
      IPCCommunicator.connect t false r = (t, false) := by
  intro s att t r
  exact ⟨rfl, rfl⟩

/-- **C9 (amended).** For a waiting `sendRequest` with a single request in
flight and any delivered response carrying this call's id: in
`IPCCommunicator`, a payload whose `error` value is a mapping fails the
call with the remote error carrying that mapping's `message` and `code`
(source defaults when absent); a payload whose `error` value is present
but not a mapping crashes the call with an untyped `AttributeError`
instead of a typed failure (see the counterexample); any other payload
returns its `result` field (default `{}`); and the call raises if and
only if the payload has an `error` key, the wait times out, the send
fails (marking the connection down), or the transport was already
disconnected.  In `VSCodeIPCProtocol`, an `err`-typed (3/`'err'`)
response — or an `ok`-typed response whose own `error` field is truthy in
the Python sense — fails the call with the remote error built from the
response's top-level `message`/`code` fields; any other delivered `ok`
response returns its `result` field; a `_send_message` failure is ignored
at send time (it only marks the transport disconnected) and surfaces as a
timeout, so the call raises if and only if the transport was already
disconnected, the wait times out, or the delivered response is error-like
as above. -/
theorem claim9_send_request_result_semantics :
    (∀ (s : IPCCommunicator.State) (sendOk : Bool) (arrival : Option Msg),
      s.pendingResponses = [] →
      (arrival = none ∨ ∃ m, arrival = some m ∧
        m.type = some (.str "response") ∧
        m.id = some (Nat.repr (s.requestId + 1))) →
      ((IPCCommunicator.is_connected s = true →
        (IPCCommunicator.send_request s true sendOk arrival).2 =
          (if sendOk = false then IPCCommunicator.Result.errSendFailed
           else
             match arrival with
             | none => IPCCommunicator.Result.errTimeout
             | some m =>
               match m.error with
               | some (.obj efs) => IPCCommunicator.Result.errRemote
                   ((dget efs "message").getD (.str "未知错误"))
                   ((dget efs "code").getD (.num (-1)))
               | some _ => IPCCommunicator.Result.crashAttributeError
               | none =>
                   IPCCommunicator.Result.ok (m.result.getD (.obj []))))
       ∧ (IPCCommunicator.raises
            (IPCCommunicator.send_request s true sendOk arrival).2 = true ↔
          (IPCCommunicator.is_connected s = false ∨ sendOk = false ∨
            arrival = none ∨
            ∃ m e, arrival = some m ∧ m.error = some e)))) ∧
    (∀ (v : VSCodeIPCProtocol.State) (sendOk : Bool) (arrival : Option Msg),
      v.pendingRequests = [] →
      v.responses = [] →
      (arrival = none ∨ ∃ m, arrival = some m ∧
        m.id = some (Nat.repr (v.requestId + 1)) ∧
        ((pvalIsNum (VSCodeIPCProtocol.msgType m) 2 ||
            pvalIsStr (VSCodeIPCProtocol.msgType m) "ok") = true ∨
         (pvalIsNum (VSCodeIPCProtocol.msgType m) 3 ||
            pvalIsStr (VSCodeIPCProtocol.msgType m) "err") = true)) →
      ((VSCodeIPCProtocol.is_connected v = true →
        (VSCodeIPCProtocol.send_request v sendOk arrival).2 =
          (match arrival with
           | none => VSCodeIPCProtocol.Result.errTimeout
           | some m =>
             if (pvalIsNum (VSCodeIPCProtocol.msgType m) 3 ||
                   pvalIsStr (VSCodeIPCProtocol.msgType m) "err") = true ∨
                optTruthy m.error = true
             then VSCodeIPCProtocol.Result.errRemote
                 (m.message.getD "Unknown error") (m.code.getD (-1))
             else VSCodeIPCProtocol.Result.ok (m.result.getD (.obj []))))
       ∧ (VSCodeIPCProtocol.raises
            (VSCodeIPCProtocol.send_request v sendOk arrival).2 = true ↔
          (VSCodeIPCProtocol.is_connected v = false ∨ arrival = none ∨
            ∃ m, arrival = some m ∧
              ((pvalIsNum (VSCodeIPCProtocol.msgType m) 3 ||
                  pvalIsStr (VSCodeIPCProtocol.msgType m) "err") = true ∨
               optTruthy m.error = true))))) := by
  constructor
  · intro s sendOk arrival hpend hroute
    by_cases hconn : IPCCommunicator.is_connected s = true
    · by_cases hsend : sendOk = false
      · constructor
        · intro _
          simp [IPCCommunicator.send_request, hconn, hsend]
        · simp [IPCCommunicator.send_request, IPCCommunicator.raises, hconn,
            hsend]
      · have hsendT : sendOk = true := by
          cases sendOk with
          | false => exact absurd rfl hsend
          | true => rfl
        rcases hroute with rfl | ⟨m, rfl, htype, hid⟩
        · constructor
          · intro _
            simp [IPCCommunicator.send_request, hconn, hsendT, hpend]
          · simp [IPCCommunicator.send_request, IPCCommunicator.raises, hconn,
              hsendT, hpend]
        · have hne := nat_repr_ne_empty (s.requestId + 1)
          rcases herr : m.error with _ | e
          · constructor
            · intro _
              simp [IPCCommunicator.send_request,
                IPCCommunicator.handle_message, hconn, hsendT, hpend, htype,
                hid, hne, pvalIsStr, dmemb, dget_dinsert, herr]
            · simp [IPCCommunicator.send_request,
                IPCCommunicator.handle_message, IPCCommunicator.raises, hconn,
                hsendT, hpend, htype, hid, hne, pvalIsStr, dmemb,
                dget_dinsert, herr]
          · cases e <;>
              exact ⟨fun _ => by
                  simp [IPCCommunicator.send_request,
                    IPCCommunicator.handle_message, hconn, hsendT, hpend,
                    htype, hid, hne, pvalIsStr, dmemb, dget_dinsert, herr],
                by
                  simp [IPCCommunicator.send_request,
                    IPCCommunicator.handle_message, IPCCommunicator.raises,
                    hconn, hsendT, hpend, htype, hid, hne, pvalIsStr, dmemb,
                    dget_dinsert, herr]⟩
    · have hconnf : IPCCommunicator.is_connected s = false := by
        cases hx : IPCCommunicator.is_connected s with
        | false => rfl
        | true => exact absurd hx hconn
      constructor
      · intro hc
        exact absurd hc hconn
      · simp [IPCCommunicator.send_request, IPCCommunicator.raises, hconnf]
  · intro v sendOk arrival hpend hresp hroute
    by_cases hconn : VSCodeIPCProtocol.is_connected v = true
    · have hne := nat_repr_ne_empty (v.requestId + 1)
      rcases hroute with rfl | ⟨m, rfl, hid, hty⟩
      · constructor
        · intro _
          simp [VSCodeIPCProtocol.send_request, hconn, hpend]
        · simp [VSCodeIPCProtocol.send_request, VSCodeIPCProtocol.raises,
            hconn, hpend]
      · rcases hty with hok | herrty
        · have herr3 : (pvalIsNum (VSCodeIPCProtocol.msgType m) 3 ||
              pvalIsStr (VSCodeIPCProtocol.msgType m) "err") = false := by
            rcases (by simpa using hok :
                pvalIsNum (VSCodeIPCProtocol.msgType m) 2 = true ∨
                pvalIsStr (VSCodeIPCProtocol.msgType m) "ok" = true)
              with h2 | hoks
            · rw [pvalIsNum_ne _ 2 3 (by decide) h2,
                pvalIsNum_not_str _ 2 "err" h2]
              rfl
            · rw [pvalIsStr_not_num _ "ok" 3 hoks,
                pvalIsStr_ne _ "ok" "err" (by decide) hoks]
              rfl
          by_cases htr : optTruthy m.error = true
          · constructor
            · intro _
              cases hsendc : sendOk <;>
                simp [VSCodeIPCProtocol.send_request,
                  VSCodeIPCProtocol.handle_message, hconn, hpend, hresp, hok,
                  hid, hne, dmemb, dget_dinsert, herr3, htr, hsendc]
            · cases hsendc : sendOk <;>
                simp [VSCodeIPCProtocol.send_request,
                  VSCodeIPCProtocol.handle_message, VSCodeIPCProtocol.raises,
                  hconn, hpend, hresp, hok, hid, hne, dmemb, dget_dinsert,
                  herr3, htr, hsendc]
          · constructor
            · intro _
              cases hsendc : sendOk <;>
                simp [VSCodeIPCProtocol.send_request,
                  VSCodeIPCProtocol.handle_message, hconn, hpend, hresp, hok,
                  hid, hne, dmemb, dget_dinsert, herr3, htr, hsendc]
            · cases hsendc : sendOk <;>
                simp [VSCodeIPCProtocol.send_request,
                  VSCodeIPCProtocol.handle_message, VSCodeIPCProtocol.raises,
                  hconn, hpend, hresp, hok, hid, hne, dmemb, dget_dinsert,
                  herr3, htr, hsendc] <;>
                exact (by simpa using herr3 :
                  pvalIsNum (VSCodeIPCProtocol.msgType m) 3 = false ∧
                  pvalIsStr (VSCodeIPCProtocol.msgType m) "err" = false)
        · have hok2 : (pvalIsNum (VSCodeIPCProtocol.msgType m) 2 ||
              pvalIsStr (VSCodeIPCProtocol.msgType m) "ok") = false := by
            rcases (by simpa using herrty :
                pvalIsNum (VSCodeIPCProtocol.msgType m) 3 = true ∨
                pvalIsStr (VSCodeIPCProtocol.msgType m) "err" = true)
              with h3 | herrs
            · rw [pvalIsNum_ne _ 3 2 (by decide) h3,
                pvalIsNum_not_str _ 3 "ok" h3]
              rfl
            · rw [pvalIsStr_not_num _ "err" 2 herrs,
                pvalIsStr_ne _ "err" "ok" (by decide) herrs]
              rfl
          constructor
          · intro _
            cases hsendc : sendOk <;>
              simp [VSCodeIPCProtocol.send_request,
                VSCodeIPCProtocol.handle_message, hconn, hpend, hresp, hok2,
                herrty, hid, hne, dmemb, dget_dinsert, hsendc]
          · cases hsendc : sendOk <;>
              simp [VSCodeIPCProtocol.send_request,
                VSCodeIPCProtocol.handle_message, VSCodeIPCProtocol.raises,
                hconn, hpend, hresp, hok2, herrty, hid, hne, dmemb,
                dget_dinsert, hsendc] <;>
              exact Or.inl (by simpa using herrty)
    · have hconnf : VSCodeIPCProtocol.is_connected v = false := by
        cases hx : VSCodeIPCProtocol.is_connected v with
        | false => rfl
        | true => exact absurd hx hconn
      constructor
      · intro hc
        exact absurd hc hconn
      · simp [VSCodeIPCProtocol.send_request, VSCodeIPCProtocol.raises,
          hconnf]

/-- **C9 counterexample.** A delivered response whose `error` value is
the non-mapping string `"x"` does not fail the call with a typed
`RemoteError(code, message)`: the source's `error.get('message', ...)`
crashes the call with an untyped `AttributeError`, an outcome distinct
from every `errRemote`, refuting the claim as stated at this concrete
input. -/
theorem claim9_counterexample_nonmapping_error_crash :
    (IPCCommunicator.send_request
        { socketSome := true, connected := true, requestId := 0,
          pendingResponses := [], responseEventSet := false,
          notificationCallback := false, notifications := [],
          listenerStarted := true }
        true true
        (some { type := some (.str "response"), id := some "1",
                error := some (.str "x") })).2 =
      IPCCommunicator.Result.crashAttributeError ∧
    (match (IPCCommunicator.send_request
        { socketSome := true, connected := true, requestId := 0,
          pendingResponses := [], responseEventSet := false,
          notificationCallback := false, notifications := [],
          listenerStarted := true }
        true true
        (some { type := some (.str "response"), id := some "1",
                error := some (.str "x") })).2 with
     | IPCCommunicator.Result.errRemote _ _ => False
     | _ => True) :=
  ⟨rfl, trivial⟩

/-- A closed instance of the amended C9: a delivered success response is
returned as its `result` field (`IPCCommunicator`), and a delivered
`err`-typed response raises the remote error with the response's message
and code (`VSCodeIPCProtocol`). -/
theorem claim9_witness :
    (IPCCommunicator.send_request
        { socketSome := true, connected := true, requestId := 0,
          pendingResponses := [], responseEventSet := false,
          notificationCallback := false, notifications := [],
          listenerStarted := true }
        true true
        (some { type := some (.str "response"), id := some "1",
                result := some (.obj [("pong", .boolean true)]) })).2 =
      IPCCommunicator.Result.ok (.obj [("pong", .boolean true)]) ∧
    (VSCodeIPCProtocol.send_request
        { socketSome := true, connected := true, requestId := 0,
          pendingRequests := [], responses := [], responseEventSet := false,
          notificationCallback := false, notifications := [] }
        true
        (some { type := some (.num 3), id := some "1",
                message := some "boom", code := some 7 })).2 =
      VSCodeIPCProtocol.Result.errRemote "boom" 7 := by
  constructor
  · have h := (claim9_send_request_result_semantics.1
      { socketSome := true, connected := true, requestId := 0,
        pendingResponses := [], responseEventSet := false,
        notificationCallback := false, notifications := [],
        listenerStarted := true }
      true
      (some { type := some (.str "response"), id := some "1",
              result := some (.obj [("pong", .boolean true)]) })
      rfl
      (Or.inr ⟨{ type := some (.str "response"), id := some "1",
                 result := some (.obj [("pong", .boolean true)]) },
        rfl, rfl, by decide⟩)).1 rfl
    simpa using h
  · have h := (claim9_send_request_result_semantics.2
      { socketSome := true, connected := true, requestId := 0,
        pendingRequests := [], responses := [], responseEventSet := false,
        notificationCallback := false, notifications := [] }
      true
      (some { type := some (.num 3), id := some "1",
              message := some "boom", code := some 7 })
      rfl rfl
      (Or.inr ⟨{ type := some (.num 3), id := some "1",
                 message := some "boom", code := some 7 },
        rfl, by decide, Or.inr (by decide)⟩)).1 rfl
    simpa [VSCodeIPCProtocol.msgType, pvalIsNum, pvalIsStr, optTruthy]
      using h

/-- **C10.** A `connect` call made while the endpoint path does not exist
leaves the `IPCCommunicator` state entirely unchanged and returns `False`;
in particular on a fresh instance the socket field stays `None`, no
listener thread is spawned, and `is_connected` still reports `False`. -/
theorem claim10_failed_connect_state_unchanged :
    ∀ (s : IPCCommunicator.State) (r : IPCCommunicator.SockRes),
      IPCCommunicator.connect s false r = (s, false) ∧
      (IPCCommunicator.connect IPCCommunicator.init false r).1.socketSome
        = false ∧
      (IPCCommunicator.connect IPCCommunicator.init false r).1.connected
        = false ∧
      (IPCCommunicator.connect IPCCommunicator.init false r).1.listenerStarted
        = false ∧
      IPCCommunicator.is_connected
        (IPCCommunicator.connect IPCCommunicator.init false r).1 = false := by
  intro s r
  exact ⟨rfl, rfl, rfl, rfl, rfl⟩

end Spec2Proof
